import Mathlib

/-!
Verification of the PyElk protocol runtime (Elk M1 panel client library).

Python strings are modelled as `List Char`; ASCII byte values via `Char.toNat`.
Machine integers do not occur (Python ints are unbounded), so `Nat`/`Int` are
used directly, with `% 256` written where the source writes it.
-/

namespace PyElk

/-- Sum of the ASCII byte values of a string
(Python: the loop `computed_checksum += ord(data_character)` in
`Event.checksum_generate`). -/
def byteSum (data : List Char) : Nat :=
  data.foldl (fun acc c => acc + c.toNat) 0

/-- One upper-case hexadecimal digit for a value `0..15`. -/
def hexDigitUpper (n : Nat) : Char :=
  if n < 10 then Char.ofNat (48 + n) else Char.ofNat (55 + n)

/-- Fuel-indexed hex conversion; `fuel = n + 1` always suffices because the
argument shrinks by a factor of 16 every step. -/
def natToHexUpperAux : Nat → Nat → List Char
  | 0, _ => []
  | fuel + 1, n =>
    if n < 16 then [hexDigitUpper n]
    else natToHexUpperAux fuel (n / 16) ++ [hexDigitUpper (n % 16)]

/-- Upper-case hexadecimal digits of `n`, most significant first
(the digits of Python `format(n, 'x').upper()`). -/
def natToHexUpper (n : Nat) : List Char :=
  natToHexUpperAux (n + 1) n

/-- Python `format(n, '02x').upper()`: hex digits, zero-padded on the left to
at least two characters. -/
def format02xUpper (n : Nat) : List Char :=
  List.replicate (2 - (natToHexUpper n).length) '0' ++ natToHexUpper n

/-- Embeds `Event.checksum_generate`: sum the bytes, reduce `% 256`, XOR with `255`,
add `1`, format as (at least) two upper-case hex digits.  Note the source
performs no truncation to 8 bits after the `+ 1`. -/
def checksum_generate (data : List Char) : List Char :=
  format02xUpper (((byteSum data % 256) ^^^ 255) + 1)


/-- The field projection of a parsed `Event`: length field, type tag, payload
string (`_data_str`), reserved field and checksum, as set by `Event.parse`. -/
structure ParsedEvent where
  lenF : List Char
  typ : List Char
  dataStr : List Char
  reserved : List Char
  checksum : List Char
deriving DecidableEq

/-- Embeds `Event.parse`: split a received frame into its fields.  `end_padding` is 4,
except for the `AM` (alarm memory) kind which has no reserved field (2).
Python slices `data[4:-end_padding]`, `data[-end_padding:-2]`, `data[-2:]`
are rendered with `drop`/`take`. -/
def parse (data : List Char) : ParsedEvent :=
  let typ := (data.drop 2).take 2
  let end_padding := if typ = ("AM").toList then 2 else 4
  let dataStr :=
    if data.length > 8 then (data.drop 4).take (data.length - 4 - end_padding) else []
  let reserved :=
    if end_padding > 2 then (data.drop (data.length - end_padding)).take (end_padding - 2)
    else []
  { lenF := data.take 2, typ := typ, dataStr := dataStr, reserved := reserved,
    checksum := data.drop (data.length - 2) }

/-- Embeds `Event.to_string`: length field is `format(len(type+data+reserved) + 2,
'02x').upper()`, checksum is generated over length field plus the rest. -/
def to_string (typ dataStr reserved : List Char) : List Char :=
  let event_str := typ ++ dataStr ++ reserved
  let lenF := format02xUpper (event_str.length + 2)
  lenF ++ event_str ++ checksum_generate (lenF ++ event_str)


/-- Embeds `Event.data_dehex`: each character yields `ord c - ord '0'`; in true-hex
mode (`fake = false`) values above 9 are reduced by a further 7. -/
def data_dehex (fake : Bool) (data : List Char) : List Int :=
  data.map (fun c =>
    if fake = false ∧ ((c.toNat : Int) - 48) > 9 then ((c.toNat : Int) - 48) - 7
    else ((c.toNat : Int) - 48))

/-- Status/level pair of an X10 device (`X10._status`, `X10._level`);
status values: 0 = Off, 1 = On, 2 = Dimmed. -/
structure X10State where
  status : Int
  level : Int
deriving DecidableEq

namespace X10

/-- Embeds `X10._state_from_int`: 0 = off (level 0), 1 = on (level 100),
anything else = dimmed at that level. -/
def state_from_int (state : Int) : X10State :=
  if state = 0 then { status := 0, level := 0 }
  else if state = 1 then { status := 1, level := 100 }
  else { status := 2, level := state }

/-- Embeds `X10.unpack_event_plc_status_reply` for the device with 0-based flat index
`idx`: reads the fake-dehexed payload at position `1 + idx % 64`
(`offset = self._index % 64; state = event.data_dehex(True)[1+offset]`). -/
def unpack_event_plc_status_reply (idx : Nat) (payload : List Char) : X10State :=
  state_from_int ((data_dehex true payload).getD (1 + idx % 64) 0)

end X10

/-- The `EVENT_PLC_STATUS_REPLY` branch of `Elk.elk_queue_process`:
`group_base = int(event.data_str[0])` (the bank digit itself, not multiplied
by 64) and the devices with flat index `group_base .. group_base+63` run
`unpack_event_plc_status_reply`. -/
def elk_process_plc_status_reply (x10 : Nat → X10State) (payload : List Char) :
    Nat → X10State :=
  let group_base := (payload.getD 0 '0').toNat - 48
  fun idx =>
    if group_base ≤ idx ∧ idx < group_base + 64 then
      X10.unpack_event_plc_status_reply idx payload
    else x10 idx


/-- A pending outbound command: the fields of `Event` used by the outbound
queue (`_time` doubles as the earliest send time, `delay()` semantics). -/
structure OutEvent where
  frame : List Char
  time : ℚ
  retries : Nat
  expect : List Char
  retry_delay : ℚ
deriving DecidableEq

/-- The outbound side of the runtime: the ElkRP pause flag
(`Connection._elkrp_connected`), the outgoing event queue
(`_queue_outgoing_elk_events`) and the frames written to the transport. -/
structure OutboundState where
  elkrp_connected : Bool
  queue : List OutEvent
  sent : List (List Char)
deriving DecidableEq

/-- Embeds `Elk.elk_event_send`: when ElkRP is connected the event is only logged and
never enqueued; otherwise it is appended to the outgoing queue. -/
def elk_event_send (s : OutboundState) (e : OutEvent) : OutboundState :=
  if s.elkrp_connected then s else { s with queue := s.queue ++ [e] }

/-- One pass of `SerialOutputHandler.run` over a snapshot of the queue taken
at time `now`.  Returns (entries kept because not yet due, retry reinsertions
in send order, frames transmitted in send order).  A due entry is sent and
removed; if it has retries left and a non-empty expect it is re-appended with
`time = now + retry_delay` and `retries - 1`.  Nothing in the loop consults
the ElkRP pause flag. -/
def run_pass_aux (now : ℚ) :
    List OutEvent → List OutEvent × List OutEvent × List (List Char)
  | [] => ([], [], [])
  | e :: rest =>
    let t := run_pass_aux now rest
    if e.time ≤ now then
      (t.1,
       (if 0 < e.retries ∧ e.expect ≠ [] then
          [{ e with retries := e.retries - 1, time := now + e.retry_delay }]
        else []) ++ t.2.1,
       e.frame :: t.2.2)
    else
      (e :: t.1, t.2.1, t.2.2)

/-- Effect of one send-loop pass on the outbound state: the queue becomes the
kept entries followed by the retry reinsertions, and the transmitted frames
are appended to the transport log. -/
def output_pass (now : ℚ) (s : OutboundState) : OutboundState :=
  { s with queue := (run_pass_aux now s.queue).1 ++ (run_pass_aux now s.queue).2.1,
           sent := s.sent ++ (run_pass_aux now s.queue).2.2 }

/-- The retry-removal step of `Elk.elk_event_enqueue`: on an inbound frame
with payload `dataStr`, only the head of the outgoing queue is examined (the
`for` loop ends in an unconditional `break`); it is removed when its expect
string is non-empty and equals the start of the inbound payload. -/
def retry_match_removal (dataStr : List Char) : List OutEvent → List OutEvent
  | [] => []
  | e :: rest =>
    if e.expect ≠ [] ∧ dataStr.take e.expect.length = e.expect then rest
    else e :: rest


/-- Python `int()` applied to a string of decimal digits. -/
def decToNat (s : List Char) : Nat :=
  s.foldl (fun acc c => acc * 10 + (c.toNat - 48)) 0

/-- Fuel-indexed decimal conversion; `fuel = n + 1` always suffices. -/
def natToDecAux : Nat → Nat → List Char
  | 0, _ => []
  | fuel + 1, n =>
    if n < 10 then [Char.ofNat (48 + n)]
    else natToDecAux fuel (n / 10) ++ [Char.ofNat (48 + n % 10)]

/-- Decimal digits of `n`, most significant first. -/
def natToDec (n : Nat) : List Char :=
  natToDecAux (n + 1) n

/-- Python `format(n, '0w')`: decimal digits zero-padded on the left to
width `w`. -/
def formatDec (w n : Nat) : List Char :=
  List.replicate (w - (natToDec n).length) '0' ++ natToDec n

/-- Python `str.strip()` on an ASCII name: drop leading and trailing
whitespace. -/
def pyStrip (s : List Char) : List Char :=
  ((s.dropWhile Char.isWhitespace).reverse.dropWhile Char.isWhitespace).reverse

/-- Modelled from the spec: `ZONE_MAX_COUNT = 208` (`Const.py` is not under
`src/`; §3.1 fixes the zone capacity at 208). -/
def ZONE_MAX_COUNT : Nat := 208

/-- The reply-processing core of `Elk.get_description` (zone flavor):
`reply_number = int(reply.data_str[2:5])`, `reply_name = reply.data_str[5:21]`;
when `reply_number >= number` the stripped name is stored on the entity with
index `reply_number - 1` and `reply_number + 1` is returned, otherwise the
call returns `False` (encoded as 0, exactly as Python's `while (desc_index)`
treats it). -/
def get_description (descs : Nat → Option (List Char)) (reply : List Char)
    (number : Nat) : (Nat → Option (List Char)) × Nat :=
  let reply_number := decToNat ((reply.drop 2).take 3)
  let reply_name := (reply.drop 5).take 16
  if reply_number ≥ number then
    (fun i => if i = reply_number - 1 then some (pyStrip reply_name) else descs i,
     reply_number + 1)
  else (descs, 0)

/-- The description phase of `Elk.scan_zones` with every zone included:
`desc_index` starts at 1 and the loop runs `while (desc_index) and
(desc_index <= ZONE_MAX_COUNT)`, each iteration issuing one `sd` request and
feeding the panel's reply (`panel n`) to `get_description`.  Returns the
final description table and the list of requested indices.  `fuel` bounds the
recursion; since the index strictly increases, `ZONE_MAX_COUNT + 1` is always
enough. -/
def scan_zone_descriptions (panel : Nat → List Char) :
    Nat → Nat → (Nat → Option (List Char)) →
      (Nat → Option (List Char)) × List Nat
  | 0, _, descs => (descs, [])
  | fuel + 1, n, descs =>
    if n ≠ 0 ∧ n ≤ ZONE_MAX_COUNT then
      let r := get_description descs (panel n) n
      ((scan_zone_descriptions panel fuel r.2 r.1).1,
       n :: (scan_zone_descriptions panel fuel r.2 r.1).2)
    else (descs, [])

/-- Modelled from the spec: the panel answers a description request for index
`n` with the next index at or after `n` that has a programmed description
(searching no further than `ZONE_MAX_COUNT`), or with an index below the
request (here 0) when there is none.  `left` counts the remaining slots, so
this is exact, not fuel-approximate. -/
def panelNextAux (occ : Nat → Bool) : Nat → Nat → Nat
  | 0, _ => 0
  | left + 1, n => if occ n then n else panelNextAux occ left (n + 1)

/-- Least occupied index in `n .. ZONE_MAX_COUNT`, else 0. -/
def panelNext (occ : Nat → Bool) (n : Nat) : Nat :=
  panelNextAux occ (ZONE_MAX_COUNT + 1 - n) n

/-- Number of occupied slots in `n .. ZONE_MAX_COUNT`. -/
def countOccAux (occ : Nat → Bool) : Nat → Nat → Nat
  | 0, _ => 0
  | left + 1, n => (if occ n then 1 else 0) + countOccAux occ left (n + 1)

/-- Number of occupied description slots from `n` up to `ZONE_MAX_COUNT`. -/
def countOcc (occ : Nat → Bool) (n : Nat) : Nat :=
  countOccAux occ (ZONE_MAX_COUNT + 1 - n) n


/-- Modelled from the spec: `AREA_MAX_COUNT = 8` (`Const.py` is not under
`src/`; §3.1 fixes the area capacity at 8). -/
def AREA_MAX_COUNT : Nat := 8

/-- The state touched by `Zone.unpack_event_zone_partition`: every zone's
recorded owning area number (`Zone._area`, 0 = unassigned) and every area's
`member_zone` table (0-based area index, 0-based zone index). -/
structure PartitionState where
  zoneArea : Nat → Int
  memberZone : Nat → Nat → Bool

/-- Embeds `Zone.unpack_event_zone_partition` for the zone with index `i`: read the
fake-dehexed value at position `i`, record it as the zone's area, clear
`member_zone[i]` in all `AREA_MAX_COUNT` areas, then set it in the area with
index `value - 1` when the value is positive. -/
def unpack_event_zone_partition (st : PartitionState) (payload : List Char)
    (i : Nat) : PartitionState :=
  let data := (data_dehex true payload).getD i 0
  let st1 : PartitionState :=
    { zoneArea := fun j => if j = i then data else st.zoneArea j,
      memberZone := fun a j =>
        if a < AREA_MAX_COUNT ∧ j = i then false else st.memberZone a j }
  if 0 < data then
    { st1 with memberZone := fun a j =>
        if a = (data - 1).toNat ∧ j = i then true else st1.memberZone a j }
  else st1

/-- The `EVENT_ZONE_PARTITION_REPORT` branch of `Elk.elk_queue_process`:
every zone index `0 .. ZONE_MAX_COUNT - 1` runs the partition unpack. -/
def elk_process_zone_partition (st : PartitionState) (payload : List Char) :
    PartitionState :=
  (List.range ZONE_MAX_COUNT).foldl
    (fun s i => unpack_event_zone_partition s payload i) st


/-- Projection of `Area`'s state used by the arming-status, user-code and
entry/exit-timer handlers.  `status`, `arm_up` and `alarm` start as Python
`None`, hence `Option Int`.  Name fields (looked up in `USERS`) are omitted;
they carry no information used by the claims. -/
structure AreaState where
  status : Option Int
  arm_up : Option Int
  alarm : Option Int
  last_user_num : Int
  last_user_at : ℚ
  last_armed_at : ℚ
  last_disarmed_at : ℚ
  timer_entrance_1 : Nat
  timer_entrance_2 : Nat
  timer_exit_1 : Nat
  timer_exit_2 : Nat
  updated_at : ℚ
deriving DecidableEq

/-- Projection of `Keypad`'s state used by the user-code-entered handler.
`area` is the keypad's owning area number (`Node._area`, 0/None meaning
unassigned). -/
structure KeypadState where
  area : Int
  last_user_num : Int
  last_user_at : ℚ
deriving DecidableEq

/-- Embeds `Keypad.unpack_event_user_code_entered`: `user = int(data_str[12:15]) - 1`
is stored on the keypad; when the keypad is assigned to an area
(`self._area > 0`) the same user number and timestamp are copied onto that
owning area (`ar` is `AREAS[self._area_index]`). -/
def unpack_event_user_code_entered (kp : KeypadState) (ar : AreaState)
    (payload : List Char) (t : ℚ) : KeypadState × AreaState :=
  let user : Int := (decToNat ((payload.drop 12).take 3) : Int) - 1
  let kp' := { kp with last_user_num := user, last_user_at := t }
  if 0 < kp.area then
    (kp', { ar with last_user_num := user, last_user_at := t, updated_at := t })
  else (kp', ar)

/-- Embeds `Area.unpack_event_arming_status_report` for the area with index `aIdx`:
status and arm-up are true-dehexed, alarm fake-dehexed.  If all three are
unchanged the handler returns early; otherwise the status is stored and, when
the event arrives within 1.0 s of the last user-code timestamp, the new
status being Disarmed (0) stamps `last_disarmed_at`, anything else stamps
`last_armed_at`. -/
def unpack_event_arming_status_report (ar : AreaState) (payload : List Char)
    (aIdx : Nat) (t : ℚ) : AreaState :=
  let status := (data_dehex false payload).getD aIdx 0
  let arm_up := (data_dehex false payload).getD (8 + aIdx) 0
  let alarm := (data_dehex true payload).getD (16 + aIdx) 0
  if ar.status = some status ∧ ar.arm_up = some arm_up ∧
      ar.alarm = some alarm then ar
  else
    let ar1 := { ar with status := some status }
    let ar2 :=
      if t - ar.last_user_at < 1 then
        if status = 0 then { ar1 with last_disarmed_at := t }
        else { ar1 with last_armed_at := t }
      else ar1
    { ar2 with arm_up := some arm_up, alarm := some alarm, updated_at := t }

/-- Embeds `Area.unpack_event_entry_exit_timer`: the direction flag is read from
payload byte 0 (`event.data[0] == '1'`), timer 1 from `data_str[1:3]`,
timer 2 from `data_str[4:6]`, the armed status from the fake-dehexed byte 7;
the status is stored and the entrance pair (direction true) or exit pair
(direction false) takes the decoded values. -/
def unpack_event_entry_exit_timer (ar : AreaState) (payload : List Char)
    (t : ℚ) : AreaState :=
  let is_entrance := payload.getD 0 '0' = '1'
  let timer_1 := decToNat ((payload.drop 1).take 2)
  let timer_2 := decToNat ((payload.drop 4).take 2)
  let status := (data_dehex true payload).getD 7 0
  let ar1 := { ar with status := some status }
  if is_entrance then
    { ar1 with timer_entrance_1 := timer_1, timer_entrance_2 := timer_2,
               updated_at := t }
  else
    { ar1 with timer_exit_1 := timer_1, timer_exit_2 := timer_2,
               updated_at := t }

/-- The area selection for `EE` in `Elk.elk_queue_process`:
`areanumber = int(event.data[0])`. -/
def elk_ee_area_number (payload : List Char) : Nat :=
  (payload.getD 0 '0').toNat - 48

/-- Embeds `X10.HOUSE_STR`: house codes 1..16 map to the letters `'A'..'P'`. -/
def HOUSE_STR (h : Nat) : Char :=
  Char.ofNat (64 + h)

/-- Embeds `Output.turn_on`: clamp the duration to `0..65535`, then send
`format(number, '03') + format(duration, '05')` (kind `cn`). -/
def output_turn_on (number : Nat) (duration : Int) : List Char :=
  let d := if duration < 0 then 0 else if duration > 65535 then 65535 else duration
  formatDec 3 number ++ formatDec 5 d.toNat

/-- Embeds `X10.control`: clamp the duration to `0..9999`, then send
`H + UU + FF + EE + TTTT` (kind `pc`). -/
def x10_control (house device fnc extended : Nat) (duration : Int) :
    List Char :=
  let d := if duration < 0 then 0 else if duration > 9999 then 9999 else duration
  [HOUSE_STR house] ++ formatDec 2 device ++ formatDec 2 fnc ++
    formatDec 2 extended ++ formatDec 4 d.toNat

/-- Embeds `Thermostat.SET_SETPOINT_COOL`. -/
def SET_SETPOINT_COOL : Nat := 4

/-- Embeds `Thermostat.SET_SETPOINT_HEAT`. -/
def SET_SETPOINT_HEAT : Nat := 5

/-- Embeds `Thermostat._set_thermostat`: `NN VV E` (kind `ts`). -/
def thermostat_set (number value setting : Nat) : List Char :=
  formatDec 2 number ++ formatDec 2 value ++ formatDec 1 setting

/-- Embeds `Thermostat.set_setpoint_cool`, numeric branch: clamp to `1..99` and send. -/
def set_setpoint_cool (number : Nat) (value : Int) : List Char :=
  let v := if value < 1 then 1 else if value > 99 then 99 else value
  thermostat_set number v.toNat SET_SETPOINT_COOL

/-- Embeds `Thermostat.set_setpoint_heat`, numeric branch: clamp to `1..99` and send. -/
def set_setpoint_heat (number : Nat) (value : Int) : List Char :=
  let v := if value < 1 then 1 else if value > 99 then 99 else value
  thermostat_set number v.toNat SET_SETPOINT_HEAT

/-- C1 (code_bug evaluation): on the frame text `"VUU"` the byte sum is
`256 ≡ 0 (mod 256)`, and `checksum_generate` returns the three-character
string `"100"` — the value `256` is not truncated to 8 bits and the result is
not two hex digits, contradicting the spec's `cc = ((sum mod 256) XOR 0xFF) + 1,
truncated to 8 bits, formatted as two uppercase hex digits`. -/
theorem C1_checksum_not_truncated :
    byteSum ("VUU").toList % 256 = 0 ∧
    checksum_generate ("VUU").toList = ("100").toList ∧
    (checksum_generate ("VUU").toList).length ≠ 2 := by
  decide


theorem natToHexUpper_small (n : Nat) (h : n < 16) :
    natToHexUpper n = [hexDigitUpper n] := by
  unfold natToHexUpper
  simp [natToHexUpperAux, h]

theorem natToHexUpper_two (n : Nat) (h1 : 16 ≤ n) (h2 : n ≤ 255) :
    natToHexUpper n = [hexDigitUpper (n / 16), hexDigitUpper (n % 16)] := by
  obtain ⟨m, rfl⟩ : ∃ m, n = m + 1 := ⟨n - 1, by omega⟩
  have hdiv : (m + 1) / 16 < 16 := by
    rw [Nat.div_lt_iff_lt_mul (by norm_num)]
    omega
  unfold natToHexUpper
  rw [natToHexUpperAux]
  rw [if_neg (by omega)]
  obtain ⟨k, hk⟩ : ∃ k, m = k + 1 := ⟨m - 1, by omega⟩
  rw [hk, natToHexUpperAux, if_pos (by omega)]
  rfl

theorem format02xUpper_length (n : Nat) (h : n ≤ 255) :
    (format02xUpper n).length = 2 := by
  unfold format02xUpper
  by_cases h16 : n < 16
  · rw [natToHexUpper_small n h16]
    rfl
  · rw [natToHexUpper_two n (by omega) h]
    rfl

theorem checksum_generate_length (data : List Char)
    (h : byteSum data % 256 ≠ 0) : (checksum_generate data).length = 2 := by
  unfold checksum_generate
  apply format02xUpper_length
  have h1 : byteSum data % 256 < 256 := Nat.mod_lt _ (by norm_num)
  have hx : byteSum data % 256 ^^^ 255 < 256 := by
    have h2 : byteSum data % 256 < 2 ^ 8 := by norm_num at h1 ⊢; exact h1
    have h3 : (255 : Nat) < 2 ^ 8 := by norm_num
    have := Nat.xor_lt_two_pow h2 h3
    norm_num at this
    exact this
  have hne : byteSum data % 256 ^^^ 255 ≠ 255 := by
    intro he
    apply h
    have h4 := congrArg (fun x => x ^^^ 255) he
    simpa [Nat.xor_assoc] using h4
  omega


/-- C2 counterexample: for the listed kind `AS` with payload `"RR"` (whose
frame byte sum is `0 mod 256`, so the generated checksum is the three
characters `"100"`), decoding the encoded message does not restore the
payload string: parsing returns `"RR0"`. -/
theorem C2_roundtrip_cex :
    (parse (to_string ("AS").toList ("RR").toList ("00").toList)).dataStr ≠
      ("RR").toList := by
  decide

/-- C2 (amended): for every message of a kind in the table (type tag of two
characters; reserved field `"00"`, or absent for the `AM` kind, whose payload
per the table has at least 3 characters), **provided the frame byte sum is
not `0 mod 256`** (so that the generated checksum really is two characters),
decoding an encoded message restores the type, payload string, reserved
field and checksum. -/
theorem C2_roundtrip_amended (T D R : List Char)
    (hT : T.length = 2)
    (hK : (T = ("AM").toList ∧ R = [] ∧ 3 ≤ D.length) ∨
          (T ≠ ("AM").toList ∧ R = ("00").toList))
    (hLen : D.length + 6 ≤ 255)
    (hSum : byteSum (format02xUpper ((T ++ D ++ R).length + 2) ++ (T ++ D ++ R))
              % 256 ≠ 0) :
    parse (to_string T D R) =
      { lenF := format02xUpper ((T ++ D ++ R).length + 2),
        typ := T, dataStr := D, reserved := R,
        checksum := checksum_generate
          (format02xUpper ((T ++ D ++ R).length + 2) ++ (T ++ D ++ R)) } := by
  have hR2 : R.length ≤ 2 := by
    rcases hK with ⟨_, hR, _⟩ | ⟨_, hR⟩ <;> rw [hR] <;> simp
  have hLlen : (format02xUpper ((T ++ D ++ R).length + 2)).length = 2 := by
    apply format02xUpper_length
    simp only [List.length_append]
    omega
  have hClen : (checksum_generate
      (format02xUpper ((T ++ D ++ R).length + 2) ++ (T ++ D ++ R))).length = 2 :=
    checksum_generate_length _ hSum
  set L := format02xUpper ((T ++ D ++ R).length + 2) with hLdef
  set C := checksum_generate (L ++ (T ++ D ++ R)) with hCdef
  have hts : to_string T D R = L ++ (T ++ D ++ R) ++ C := by
    simp only [to_string]
  rw [hts]
  have hframe : L ++ (T ++ D ++ R) ++ C = L ++ (T ++ (D ++ (R ++ C))) := by
    simp [List.append_assoc]
  have hflen : (L ++ (T ++ D ++ R) ++ C).length = D.length + R.length + 6 := by
    simp only [List.length_append, hLlen, hClen, hT]
    omega
  have htake2 : (L ++ (T ++ D ++ R) ++ C).take 2 = L := by
    rw [hframe]
    exact List.take_left' hLlen
  have hdrop2 : (L ++ (T ++ D ++ R) ++ C).drop 2 = T ++ (D ++ (R ++ C)) := by
    rw [hframe]
    exact List.drop_left' hLlen
  have htyp : ((L ++ (T ++ D ++ R) ++ C).drop 2).take 2 = T := by
    rw [hdrop2]
    exact List.take_left' hT
  have hdrop4 : (L ++ (T ++ D ++ R) ++ C).drop 4 = D ++ (R ++ C) := by
    have h44 : (4 : Nat) = 2 + 2 := rfl
    rw [h44, ← List.drop_drop, hdrop2]
    exact List.drop_left' hT
  have hcs : (L ++ (T ++ D ++ R) ++ C).drop
      ((L ++ (T ++ D ++ R) ++ C).length - 2) = C := by
    apply List.drop_left'
    simp only [List.length_append, hLlen, hClen, hT]
    omega
  simp only [parse, ParsedEvent.mk.injEq]
  rw [htyp, htake2, hdrop4, hcs]
  rcases hK with ⟨hAM, hRnil, hD3⟩ | ⟨hAMn, hR00⟩
  · -- AM kind: no reserved field
    have hep : (if T = ("AM").toList then 2 else 4) = 2 := if_pos hAM
    rw [hep]
    have hgt8 : (L ++ (T ++ D ++ R) ++ C).length > 8 := by
      rw [hflen, hRnil]
      simp only [List.length_nil]
      omega
    rw [if_pos hgt8]
    refine ⟨rfl, rfl, ?_, ?_, rfl⟩
    · apply List.take_left'
      rw [hflen, hRnil]
      simp only [List.length_nil]
      omega
    · rw [if_neg (by omega), hRnil]
  · -- ordinary kind: reserved field is "00"
    have hRlen : R.length = 2 := by rw [hR00]; rfl
    have hep : (if T = ("AM").toList then 2 else 4) = 4 := if_neg hAMn
    rw [hep]
    refine ⟨rfl, rfl, ?_, ?_, rfl⟩
    · -- payload: empty payloads take the short-frame branch, both restore D
      by_cases hD : D.length = 0
      · rw [if_neg (by rw [hflen, hRlen]; omega)]
        exact (List.eq_nil_of_length_eq_zero hD).symm
      · rw [if_pos (by rw [hflen, hRlen]; omega)]
        apply List.take_left'
        rw [hflen, hRlen]
        omega
    · -- reserved field: two characters before the checksum
      rw [if_pos (by omega)]
      have hframe2 : L ++ (T ++ D ++ R) ++ C = (L ++ (T ++ D)) ++ (R ++ C) := by
        simp [List.append_assoc]
      rw [hframe2]
      have hdropR : ((L ++ (T ++ D)) ++ (R ++ C)).drop
          (((L ++ (T ++ D)) ++ (R ++ C)).length - 4) = R ++ C := by
        apply List.drop_left'
        simp only [List.length_append, hLlen, hClen, hT, hRlen]
        omega
      rw [hdropR]
      exact List.take_left' (by omega)

/-- C2 amended-theorem witness: a concrete `AS` message round-trips. -/
theorem C2_roundtrip_amended_witness :
    parse (to_string ("AS").toList ("00").toList ("00").toList) =
      { lenF := format02xUpper ((("AS").toList ++ ("00").toList ++
          ("00").toList).length + 2),
        typ := ("AS").toList, dataStr := ("00").toList,
        reserved := ("00").toList,
        checksum := checksum_generate
          (format02xUpper ((("AS").toList ++ ("00").toList ++
            ("00").toList).length + 2) ++
           (("AS").toList ++ ("00").toList ++ ("00").toList)) } :=
  C2_roundtrip_amended _ _ _ (by decide) (Or.inr (by decide)) (by decide)
    (by decide)

/-- C3 (code_bug evaluation): a `PS` frame with bank digit `'1'` and payload
nibble `'5'` at position 3.  The claim (and the unpack routine's own indexing
`idx % 64`) place that nibble on the device with flat index `1*64 + 2 = 66`,
but the dispatcher iterates `range(group_base, group_base + 64) = 1..64`, so
device 66 is left untouched while device 2 (house A, unit 3) is set to
Dimmed level 5 instead. -/
theorem C3_ps_bank_not_scaled :
    (elk_process_plc_status_reply (fun _ => ⟨0, 0⟩)
        (("1005").toList ++ List.replicate 61 '0')) 66 = ⟨0, 0⟩ ∧
    (elk_process_plc_status_reply (fun _ => ⟨0, 0⟩)
        (("1005").toList ++ List.replicate 61 '0')) 2 = ⟨2, 5⟩ ∧
    X10.unpack_event_plc_status_reply 66
        (("1005").toList ++ List.replicate 61 '0') = ⟨2, 5⟩ := by
  decide

/-- C4 counterexample: with ElkRP connected (runtime Paused) and a due entry
already in the outgoing queue (for example a retry reinsertion from before
the pause), the send loop still transmits it — `SerialOutputHandler.run`
never checks the pause flag, so a command frame does reach the transport
while Paused. -/
theorem C4_paused_send_cex :
    (output_pass 1
      { elkrp_connected := true,
        queue := [{ frame := ("0663003D").toList, time := 0, retries := 0,
                    expect := [], retry_delay := 1 }],
        sent := [] }).sent ≠ [] := by
  decide

/-- C4 (amended): a command issued while Paused is indeed discarded at
`elk_event_send` and never enqueued (so that command never reaches the
transport); the send loop itself, however, performs no Paused check, so only
entries that entered the queue before the pause can still be emitted. -/
theorem C4_amended_paused_discard (s : OutboundState) (e : OutEvent)
    (h : s.elkrp_connected = true) :
    elk_event_send s e = s ∧ (elk_event_send s e).sent = s.sent := by
  constructor
  · simp [elk_event_send, h]
  · simp [elk_event_send, h]

/-- C4 amended-theorem witness at a concrete paused state. -/
theorem C4_amended_paused_discard_witness :
    elk_event_send
      { elkrp_connected := true, queue := [], sent := [] }
      { frame := ("0663003D").toList, time := 0, retries := 0, expect := [],
        retry_delay := 1 } =
      { elkrp_connected := true, queue := [], sent := [] } :=
  (C4_amended_paused_discard _ _ rfl).1

/-- C5: a queued command with non-empty expect and positive retry budget.
After the send pass at `t0` the frame has been transmitted once and the entry
re-queued with `time = t0 + retry_delay` and one fewer retry; no later pass
before the retry is due sends anything; and once an inbound frame whose
payload starts with the expect prefix arrives, the pending entry is removed
and no pass ever sends again — the command is transmitted exactly once. -/
theorem C5_retry_cancel (e : OutEvent) (t0 : ℚ) (reply : List Char)
    (hr : 0 < e.retries) (hx : e.expect ≠ []) (hdue : e.time ≤ t0)
    (hmatch : reply.take e.expect.length = e.expect) :
    (output_pass t0 ⟨false, [e], []⟩).queue =
      [{ e with retries := e.retries - 1, time := t0 + e.retry_delay }] ∧
    (output_pass t0 ⟨false, [e], []⟩).sent = [e.frame] ∧
    (∀ t : ℚ, t < t0 + e.retry_delay →
      (output_pass t (output_pass t0 ⟨false, [e], []⟩)).sent = [e.frame]) ∧
    retry_match_removal reply (output_pass t0 ⟨false, [e], []⟩).queue = [] ∧
    (∀ t : ℚ,
      (output_pass t
        { output_pass t0 ⟨false, [e], []⟩ with
          queue := retry_match_removal reply
            (output_pass t0 ⟨false, [e], []⟩).queue }).sent = [e.frame]) := by
  have h1 : run_pass_aux t0 [e] =
      ([], [{ e with retries := e.retries - 1, time := t0 + e.retry_delay }],
       [e.frame]) := by
    simp [run_pass_aux, hdue, hr, hx]
  have hs1 : output_pass t0 ⟨false, [e], []⟩ =
      ⟨false, [{ e with retries := e.retries - 1, time := t0 + e.retry_delay }],
       [e.frame]⟩ := by
    simp [output_pass, h1]
  have hrm : retry_match_removal reply
      [{ e with retries := e.retries - 1, time := t0 + e.retry_delay }] = [] := by
    simp [retry_match_removal, hx, hmatch]
  refine ⟨?_, ?_, ?_, ?_, ?_⟩
  · rw [hs1]
  · rw [hs1]
  · intro t ht
    rw [hs1]
    simp [output_pass, run_pass_aux, not_le.mpr ht]
  · rw [hs1]
    exact hrm
  · intro t
    rw [hs1]
    rw [hrm]
    simp [output_pass, run_pass_aux]

/-- C5 witness: `as` command expecting `AS`, 3 retries, delay 1, sent at time
0; the `AS` reply payload arrives and cancels the retry. -/
theorem C5_retry_cancel_witness :
    (output_pass 0 ⟨false,
        [{ frame := ("0661003E").toList, time := 0, retries := 3,
           expect := ("AS").toList, retry_delay := 1 }], []⟩).sent =
      [("0661003E").toList] :=
  (C5_retry_cancel
    { frame := ("0661003E").toList, time := 0, retries := 3,
      expect := ("AS").toList, retry_delay := 1 }
    0 (("AS1000").toList) (by decide) (by decide) (by decide) (by decide)).2.1

theorem scan_zone_descriptions_succ (panel : Nat → List Char) (fuel n : Nat)
    (descs : Nat → Option (List Char)) :
    scan_zone_descriptions panel (fuel + 1) n descs =
      if n ≠ 0 ∧ n ≤ ZONE_MAX_COUNT then
        ((scan_zone_descriptions panel fuel
            (get_description descs (panel n) n).2
            (get_description descs (panel n) n).1).1,
         n :: (scan_zone_descriptions panel fuel
            (get_description descs (panel n) n).2
            (get_description descs (panel n) n).1).2)
      else (descs, []) := rfl

theorem countOcc_stop (occ : Nat → Bool) (n : Nat) (h : ZONE_MAX_COUNT < n) :
    countOcc occ n = 0 := by
  unfold countOcc
  have : ZONE_MAX_COUNT + 1 - n = 0 := by omega
  rw [this]
  rfl

theorem countOcc_step (occ : Nat → Bool) (n : Nat) (h : n ≤ ZONE_MAX_COUNT) :
    countOcc occ n = (if occ n then 1 else 0) + countOcc occ (n + 1) := by
  unfold countOcc
  have h1 : ZONE_MAX_COUNT + 1 - n = (ZONE_MAX_COUNT - n) + 1 := by omega
  have h2 : ZONE_MAX_COUNT + 1 - (n + 1) = ZONE_MAX_COUNT - n := by omega
  rw [h1, h2]
  rfl

theorem panelNext_stop (occ : Nat → Bool) (n : Nat) (h : ZONE_MAX_COUNT < n) :
    panelNext occ n = 0 := by
  unfold panelNext
  have : ZONE_MAX_COUNT + 1 - n = 0 := by omega
  rw [this]
  rfl

theorem panelNext_step (occ : Nat → Bool) (n : Nat) (h : n ≤ ZONE_MAX_COUNT) :
    panelNext occ n = if occ n then n else panelNext occ (n + 1) := by
  unfold panelNext
  have h1 : ZONE_MAX_COUNT + 1 - n = (ZONE_MAX_COUNT - n) + 1 := by omega
  have h2 : ZONE_MAX_COUNT + 1 - (n + 1) = ZONE_MAX_COUNT - n := by omega
  rw [h1, h2]
  rfl

theorem panelNext_none (occ : Nat → Bool) :
    ∀ k n, ZONE_MAX_COUNT + 1 - n ≤ k → 1 ≤ n → panelNext occ n = 0 →
      countOcc occ n = 0 := by
  intro k
  induction k with
  | zero =>
    intro n hk _ _
    exact countOcc_stop occ n (by omega)
  | succ k ih =>
    intro n hk h1 hp
    by_cases hn : n ≤ ZONE_MAX_COUNT
    · rw [panelNext_step occ n hn] at hp
      by_cases ho : occ n
      · rw [if_pos ho] at hp
        omega
      · rw [if_neg ho] at hp
        rw [countOcc_step occ n hn, if_neg ho]
        have := ih (n + 1) (by omega) (by omega) hp
        omega
    · exact countOcc_stop occ n (by omega)

theorem panelNext_found (occ : Nat → Bool) :
    ∀ k n, ZONE_MAX_COUNT + 1 - n ≤ k → 1 ≤ n → panelNext occ n ≠ 0 →
      n ≤ panelNext occ n ∧ panelNext occ n ≤ ZONE_MAX_COUNT ∧
      occ (panelNext occ n) = true ∧
      countOcc occ n = countOcc occ (panelNext occ n + 1) + 1 := by
  intro k
  induction k with
  | zero =>
    intro n hk h1 hp
    rw [panelNext_stop occ n (by omega)] at hp
    exact absurd rfl hp
  | succ k ih =>
    intro n hk h1 hp
    by_cases hn : n ≤ ZONE_MAX_COUNT
    · rw [panelNext_step occ n hn] at hp ⊢
      by_cases ho : occ n
      · rw [if_pos ho]
        rw [countOcc_step occ n hn, if_pos ho]
        exact ⟨le_refl n, hn, ho, by omega⟩
      · rw [if_neg ho] at hp ⊢
        obtain ⟨ha, hb, hc, hd⟩ := ih (n + 1) (by omega) (by omega) hp
        refine ⟨by omega, hb, hc, ?_⟩
        rw [countOcc_step occ n hn, if_neg ho, hd]
        omega
    · rw [panelNext_stop occ n (by omega)] at hp
      exact absurd rfl hp

theorem panelNext_le (occ : Nat → Bool) (n : Nat) (h1 : 1 ≤ n) :
    panelNext occ n ≤ ZONE_MAX_COUNT := by
  by_cases hp : panelNext occ n = 0
  · rw [hp]
    unfold ZONE_MAX_COUNT
    omega
  · exact (panelNext_found occ (ZONE_MAX_COUNT + 1) n (by omega) h1 hp).2.1

theorem scan_zone_descriptions_requests (occ : Nat → Bool)
    (panel : Nat → List Char)
    (hpanel : ∀ n, 1 ≤ n → n ≤ ZONE_MAX_COUNT →
      decToNat (((panel n).drop 2).take 3) = panelNext occ n)
    (hlast : occ ZONE_MAX_COUNT = false) :
    ∀ fuel n descs, 1 ≤ n → n ≤ ZONE_MAX_COUNT →
      ZONE_MAX_COUNT + 1 - n ≤ fuel →
      (scan_zone_descriptions panel fuel n descs).2.length =
        countOcc occ n + 1 := by
  intro fuel
  induction fuel with
  | zero =>
    intro n descs h1 h2 hf
    omega
  | succ fuel ih =>
    intro n descs h1 h2 hf
    rw [scan_zone_descriptions_succ, if_pos ⟨by omega, h2⟩]
    have hrn : decToNat (((panel n).drop 2).take 3) = panelNext occ n :=
      hpanel n h1 h2
    by_cases hm : panelNext occ n = 0
    · have hg : get_description descs (panel n) n = (descs, 0) := by
        unfold get_description
        rw [if_neg (by omega)]
      rw [hg]
      have hz : (scan_zone_descriptions panel fuel 0 descs).2 = [] := by
        cases fuel with
        | zero => rfl
        | succ fuel =>
          rw [scan_zone_descriptions_succ, if_neg (by simp)]
      simp only [hz, List.length_cons, List.length_nil]
      rw [panelNext_none occ (ZONE_MAX_COUNT + 1) n (by omega) h1 hm]
    · obtain ⟨ha, hb, hc, hd⟩ :=
        panelNext_found occ (ZONE_MAX_COUNT + 1) n (by omega) h1 hm
      have hg : get_description descs (panel n) n =
          (fun i => if i = panelNext occ n - 1 then
             some (pyStrip (((panel n).drop 5).take 16)) else descs i,
           panelNext occ n + 1) := by
        unfold get_description
        rw [hrn, if_pos (by omega)]
      rw [hg]
      have hne : panelNext occ n ≠ ZONE_MAX_COUNT := by
        intro he
        rw [he, hlast] at hc
        exact Bool.false_ne_true hc
      simp only [hg, List.length_cons]
      rw [ih (panelNext occ n + 1)
        (fun i => if i = panelNext occ n - 1 then
          some (pyStrip (((panel n).drop 5).take 16)) else descs i)
        (by omega) (by omega) (by omega)]
      omega

/-- C6: the skip-empty description traversal.  (i) After a request for index
`n`, a reply whose returned index `r` is at least `n` stores the (stripped)
16 characters at payload offset 5 on the entity with index `r - 1`, and the
next request uses `r + 1`.  (ii) A reply with `r < n` changes nothing and
ends the traversal (the loop also stops at the class bound).  (iii) For a
panel that answers with the next occupied slot (none at the upper bound
itself), the number of requests issued equals the number of occupied slots
plus the single terminating request — not one request per slot. -/
theorem C6_description_scan (occ : Nat → Bool) (panel : Nat → List Char)
    (descs0 : Nat → Option (List Char)) (fuel : Nat)
    (hpanel : ∀ n, 1 ≤ n → n ≤ ZONE_MAX_COUNT →
      decToNat (((panel n).drop 2).take 3) = panelNext occ n)
    (hlast : occ ZONE_MAX_COUNT = false)
    (hfuel : ZONE_MAX_COUNT ≤ fuel) :
    (∀ descs reply n, n ≤ decToNat ((reply.drop 2).take 3) →
      (get_description descs reply n).1 (decToNat ((reply.drop 2).take 3) - 1)
          = some (pyStrip ((reply.drop 5).take 16)) ∧
      (get_description descs reply n).2 = decToNat ((reply.drop 2).take 3) + 1) ∧
    (∀ descs reply n, decToNat ((reply.drop 2).take 3) < n →
      get_description descs reply n = (descs, 0)) ∧
    (scan_zone_descriptions panel fuel 1 descs0).2.length = countOcc occ 1 + 1 := by
  refine ⟨?_, ?_, ?_⟩
  · intro descs reply n h
    unfold get_description
    rw [if_pos h]
    exact ⟨by simp, rfl⟩
  · intro descs reply n h
    unfold get_description
    rw [if_neg (by omega)]
  · apply scan_zone_descriptions_requests occ panel hpanel hlast fuel 1
      descs0 (by omega)
    · unfold ZONE_MAX_COUNT
      omega
    · omega

set_option maxRecDepth 8000 in
/-- C6 witness: descriptions programmed exactly at zones 1, 3 and 7; the scan
issues requests `1, 2, 4, 8` — three occupied slots plus the terminating
request. -/
theorem C6_description_scan_witness :
    (scan_zone_descriptions
        (fun n => ("00").toList ++
          formatDec 3 (panelNext (fun m => m == 1 || m == 3 || m == 7) n) ++
          List.replicate 16 ' ')
        209 1 (fun _ => none)).2.length =
      countOcc (fun m => m == 1 || m == 3 || m == 7) 1 + 1 := by
  have key : ∀ m : Fin 209,
      decToNat ((((("00").toList ++ formatDec 3 m.val ++
        List.replicate 16 ' ')).drop 2).take 3) = m.val := by
    decide
  exact (C6_description_scan (fun m => m == 1 || m == 3 || m == 7)
    (fun n => ("00").toList ++
      formatDec 3 (panelNext (fun m => m == 1 || m == 3 || m == 7) n) ++
      List.replicate 16 ' ')
    (fun _ => none) 209
    (fun n h1 h2 => key ⟨panelNext (fun m => m == 1 || m == 3 || m == 7) n,
      by have := panelNext_le (fun m => m == 1 || m == 3 || m == 7) n h1
         unfold ZONE_MAX_COUNT at this
         omega⟩)
    (by decide) (by decide)).2.2

theorem unpack_zone_partition_zoneArea (st : PartitionState)
    (payload : List Char) (i q : Nat) :
    (unpack_event_zone_partition st payload i).zoneArea q =
      if q = i then (data_dehex true payload).getD i 0 else st.zoneArea q := by
  unfold unpack_event_zone_partition
  set v := (data_dehex true payload).getD i 0 with hv
  by_cases hd : 0 < v
  · simp only [if_pos hd]
  · simp only [if_neg hd]

theorem unpack_zone_partition_memberZone (st : PartitionState)
    (payload : List Char) (i a q : Nat) (ha : a < AREA_MAX_COUNT) :
    (unpack_event_zone_partition st payload i).memberZone a q =
      if q = i then
        (if 0 < (data_dehex true payload).getD i 0 ∧
            a = ((data_dehex true payload).getD i 0 - 1).toNat
         then true else false)
      else st.memberZone a q := by
  unfold unpack_event_zone_partition
  set v := (data_dehex true payload).getD i 0 with hv
  by_cases hq : q = i
  · by_cases hd : 0 < v
    · by_cases haa : a = (v - 1).toNat
      · simp [hd, hq, haa]
      · simp [hd, hq, haa, ha]
    · simp [hd, hq, ha]
  · by_cases hd : 0 < v
    · by_cases haa : a = (v - 1).toNat
      · simp [hd, hq, haa]
      · simp [hd, hq, haa]
    · simp [hd, hq]

theorem partition_foldl_zoneArea (payload : List Char) (L : List Nat) :
    ∀ st q, ((L.foldl (fun s i => unpack_event_zone_partition s payload i)
        st).zoneArea q) =
      if q ∈ L then (data_dehex true payload).getD q 0 else st.zoneArea q := by
  induction L with
  | nil =>
    intro st q
    simp
  | cons j L ih =>
    intro st q
    rw [List.foldl_cons, ih]
    by_cases hq : q ∈ L
    · simp [hq]
    · rw [if_neg hq, unpack_zone_partition_zoneArea]
      by_cases hj : q = j
      · subst hj
        simp
      · simp [hj, hq]

theorem partition_foldl_memberZone (payload : List Char) (L : List Nat)
    (a : Nat) (ha : a < AREA_MAX_COUNT) :
    ∀ st q, ((L.foldl (fun s i => unpack_event_zone_partition s payload i)
        st).memberZone a q) =
      if q ∈ L then
        (if 0 < (data_dehex true payload).getD q 0 ∧
            a = ((data_dehex true payload).getD q 0 - 1).toNat
         then true else false)
      else st.memberZone a q := by
  induction L with
  | nil =>
    intro st q
    simp
  | cons j L ih =>
    intro st q
    rw [List.foldl_cons, ih]
    by_cases hq : q ∈ L
    · simp [hq]
    · rw [if_neg hq, unpack_zone_partition_memberZone st payload j a q ha]
      by_cases hj : q = j
      · subst hj
        simp
      · simp [hj, hq]

/-- C7: after a zone partition report is processed for all 208 zones, an
area's `member_zone[i]` is true exactly when zone `i`'s recorded owning area
number equals that area's (1-based) number; in particular a zone whose
recorded value is 0 is a member of no area.  The hypothesis keeps the report
values in `0..8`, the range the Python code can handle without an
out-of-range `AREAS` access. -/
theorem C7_zone_partition_membership (st : PartitionState)
    (payload : List Char)
    (hval : ∀ i, i < ZONE_MAX_COUNT →
      0 ≤ (data_dehex true payload).getD i 0 ∧
      (data_dehex true payload).getD i 0 ≤ 8) :
    ∀ a, a < AREA_MAX_COUNT → ∀ i, i < ZONE_MAX_COUNT →
      ((elk_process_zone_partition st payload).memberZone a i = true ↔
       (elk_process_zone_partition st payload).zoneArea i = (a : Int) + 1) := by
  intro a ha i hi
  unfold elk_process_zone_partition
  rw [partition_foldl_memberZone payload _ a ha,
    partition_foldl_zoneArea payload]
  have hmem : i ∈ List.range ZONE_MAX_COUNT := List.mem_range.mpr hi
  rw [if_pos hmem, if_pos hmem]
  obtain ⟨hv0, hv8⟩ := hval i hi
  constructor
  · intro h
    by_cases hc : 0 < (data_dehex true payload).getD i 0 ∧
        a = ((data_dehex true payload).getD i 0 - 1).toNat
    · obtain ⟨h1, h2⟩ := hc
      omega
    · rw [if_neg hc] at h
      exact absurd h (by simp)
  · intro h
    rw [if_pos ⟨by omega, by omega⟩]

set_option maxRecDepth 8000 in
/-- C7 witness: a concrete report assigning zone 1 to area 1 and zone 2 to
area 3 (the rest unassigned), instantiated at area index 2 and zone index 1:
area 3's membership bit for zone 2 matches that zone recording area 3. -/
theorem C7_zone_partition_membership_witness :
    (elk_process_zone_partition
        ⟨fun _ => 0, fun _ _ => false⟩
        (("13").toList ++ List.replicate 206 '0')).memberZone 2 1 = true ↔
      (elk_process_zone_partition
        ⟨fun _ => 0, fun _ _ => false⟩
        (("13").toList ++ List.replicate 206 '0')).zoneArea 1 =
        (2 : Int) + 1 :=
  C7_zone_partition_membership ⟨fun _ => 0, fun _ _ => false⟩
    (("13").toList ++ List.replicate 206 '0')
    (by decide) 2 (by decide) 1 (by decide)

/-- C8: an `IC` is processed on a keypad belonging to the area at time `tIC`,
then an `AS` transition (decoded status `S` differing from the area's
current status) arrives at `tAS` within 1.0 s.  The area's last-user number
then equals the keypad's, the status field carries the new status, and
exactly one of `last_armed_at` / `last_disarmed_at` equals the transition's
timestamp: `last_disarmed_at` when `S` is Disarmed (0), `last_armed_at`
otherwise (the other keeps its old value, assumed distinct from `tAS`). -/
theorem C8_last_user_attribution (kp : KeypadState) (ar : AreaState)
    (icPayload asPayload : List Char) (tIC tAS : ℚ) (aIdx : Nat) (S : Int)
    (hS : S = (data_dehex false asPayload).getD aIdx 0)
    (hmem : 0 < kp.area)
    (hwin : tAS - tIC < 1)
    (htrans : ar.status ≠ some S)
    (harm : ar.last_armed_at ≠ tAS)
    (hdis : ar.last_disarmed_at ≠ tAS) :
    (unpack_event_arming_status_report
        (unpack_event_user_code_entered kp ar icPayload tIC).2
        asPayload aIdx tAS).last_user_num =
      (unpack_event_user_code_entered kp ar icPayload tIC).1.last_user_num ∧
    (unpack_event_arming_status_report
        (unpack_event_user_code_entered kp ar icPayload tIC).2
        asPayload aIdx tAS).status = some S ∧
    (S = 0 →
      (unpack_event_arming_status_report
          (unpack_event_user_code_entered kp ar icPayload tIC).2
          asPayload aIdx tAS).last_disarmed_at = tAS ∧
      (unpack_event_arming_status_report
          (unpack_event_user_code_entered kp ar icPayload tIC).2
          asPayload aIdx tAS).last_armed_at ≠ tAS) ∧
    (S ≠ 0 →
      (unpack_event_arming_status_report
          (unpack_event_user_code_entered kp ar icPayload tIC).2
          asPayload aIdx tAS).last_armed_at = tAS ∧
      (unpack_event_arming_status_report
          (unpack_event_user_code_entered kp ar icPayload tIC).2
          asPayload aIdx tAS).last_disarmed_at ≠ tAS) := by
  have hic : unpack_event_user_code_entered kp ar icPayload tIC =
      ({ kp with
          last_user_num := (decToNat ((icPayload.drop 12).take 3) : Int) - 1,
          last_user_at := tIC },
       { ar with
          last_user_num := (decToNat ((icPayload.drop 12).take 3) : Int) - 1,
          last_user_at := tIC, updated_at := tIC }) := by
    unfold unpack_event_user_code_entered
    rw [if_pos hmem]
  rw [hic]
  simp only [unpack_event_arming_status_report, ← hS]
  rw [if_neg (by
    intro hall
    exact htrans hall.1)]
  rw [if_pos hwin]
  by_cases hS0 : S = 0
  · rw [if_pos hS0]
    exact ⟨rfl, rfl, fun _ => ⟨rfl, harm⟩, fun h => absurd hS0 h⟩
  · rw [if_neg hS0]
    exact ⟨rfl, rfl, fun h => absurd h hS0, fun _ => ⟨rfl, hdis⟩⟩

/-- C8 witness: user 5 on keypad 2 (area 1) at t = 1, arm-away transition at
t = 1.3. -/
theorem C8_last_user_attribution_witness :
    (unpack_event_arming_status_report
        (unpack_event_user_code_entered ⟨1, -1, 0⟩
          ⟨some 0, some 1, some 0, 0, 0, 0, 0, 0, 0, 0, 0, 0⟩
          (("00000000000000502").toList) 1).2
        (("1000000044444444000000000").toList) 0 (13/10)).last_user_num =
      (unpack_event_user_code_entered ⟨1, -1, 0⟩
        ⟨some 0, some 1, some 0, 0, 0, 0, 0, 0, 0, 0, 0, 0⟩
        (("00000000000000502").toList) 1).1.last_user_num :=
  (C8_last_user_attribution ⟨1, -1, 0⟩
    ⟨some 0, some 1, some 0, 0, 0, 0, 0, 0, 0, 0, 0, 0⟩
    (("00000000000000502").toList) (("1000000044444444000000000").toList)
    1 (13/10) 0 1 (by decide) (by decide) (by norm_num) (by decide)
    (by norm_num) (by norm_num)).1

/-- C9 (code_bug evaluation): the `EE` payload `"100300601"` (area 1,
direction 0 = exit, timer1 = 030, timer2 = 060, armed status 1, per the
schema `A D ttt TTT S`).  The dispatcher does route it to area 1, but the
unpack reads every field one byte early: the area byte is taken as the
direction (so the *entrance* pair is updated although D = 0 says exit), the
timers come out as `int("00") = 0` and `int("00") = 0` instead of 30 and 60,
and the status is byte 7 (`0`) instead of byte 8 (`1`). -/
theorem C9_entry_exit_offsets :
    elk_ee_area_number (("100300601").toList) = 1 ∧
    unpack_event_entry_exit_timer
        ⟨none, none, none, 0, 0, 0, 0, 77, 77, 99, 99, 0⟩
        (("100300601").toList) 2 =
      ⟨some 0, none, none, 0, 0, 0, 0, 0, 0, 99, 99, 2⟩ ∧
    decToNat (("030").toList) = 30 ∧
    decToNat (("060").toList) = 60 ∧
    (data_dehex true (("100300601").toList)).getD 8 0 = 1 := by
  decide

/-- C10: out-of-range numeric command arguments are clamped, never rejected,
and a frame is always produced: for every integer `d`, `Output.turn_on`
encodes the duration `min (max d 0) 65535`, `X10.control` encodes
`min (max d 0) 9999`, and the two thermostat setpoint setters encode
`min (max d 1) 99`. -/
theorem C10_numeric_clamping (n h u f e : Nat) (d : Int) :
    output_turn_on n d =
      formatDec 3 n ++ formatDec 5 (min (max d 0) 65535).toNat ∧
    x10_control h u f e d =
      [HOUSE_STR h] ++ formatDec 2 u ++ formatDec 2 f ++ formatDec 2 e ++
        formatDec 4 (min (max d 0) 9999).toNat ∧
    set_setpoint_cool n d =
      thermostat_set n (min (max d 1) 99).toNat SET_SETPOINT_COOL ∧
    set_setpoint_heat n d =
      thermostat_set n (min (max d 1) 99).toNat SET_SETPOINT_HEAT := by
  refine ⟨?_, ?_, ?_, ?_⟩
  · unfold output_turn_on
    have : (if d < 0 then 0 else if d > 65535 then 65535 else d) =
        min (max d 0) 65535 := by
      split_ifs <;> omega
    rw [this]
  · unfold x10_control
    have : (if d < 0 then 0 else if d > 9999 then 9999 else d) =
        min (max d 0) 9999 := by
      split_ifs <;> omega
    rw [this]
  · unfold set_setpoint_cool
    have : (if d < 1 then 1 else if d > 99 then 99 else d) =
        min (max d 1) 99 := by
      split_ifs <;> omega
    rw [this]
  · unfold set_setpoint_heat
    have : (if d < 1 then 1 else if d > 99 then 99 else d) =
        min (max d 1) 99 := by
      split_ifs <;> omega
    rw [this]

end PyElk
